import Mathlib

/-!
Verification of the grid data model of the map builder tool
(src/map_tool.py).  Python strings are embedded as lists of characters,
the rows by cols tile grid as a list of rows (each a list of characters),
and the stateful GridWidget as a record of its grid-relevant fields.
Every operation below is a direct translation of the corresponding
Python code.
-/

set_option maxHeartbeats 1000000

/-- Characters that the Python str.splitlines method treats as line
boundaries (CPython's set of line break characters). -/
def lineBreakChars : List Char :=
  ['\n', '\r', Char.ofNat 0x0b, Char.ofNat 0x0c, Char.ofNat 0x1c,
   Char.ofNat 0x1d, Char.ofNat 0x1e, Char.ofNat 0x85,
   Char.ofNat 0x2028, Char.ofNat 0x2029]

def isLineBreak (c : Char) : Bool := lineBreakChars.contains c

/-- Characters for which the Python str.isspace predicate holds, i.e. the
characters stripped by str.strip with no argument. -/
def pySpaceChars : List Char :=
  [' ', '\t', '\n', Char.ofNat 0x0b, Char.ofNat 0x0c, '\r',
   Char.ofNat 0x1c, Char.ofNat 0x1d, Char.ofNat 0x1e, Char.ofNat 0x1f,
   Char.ofNat 0x85, Char.ofNat 0xa0, Char.ofNat 0x1680,
   Char.ofNat 0x2000, Char.ofNat 0x2001, Char.ofNat 0x2002,
   Char.ofNat 0x2003, Char.ofNat 0x2004, Char.ofNat 0x2005,
   Char.ofNat 0x2006, Char.ofNat 0x2007, Char.ofNat 0x2008,
   Char.ofNat 0x2009, Char.ofNat 0x200a, Char.ofNat 0x2028,
   Char.ofNat 0x2029, Char.ofNat 0x202f, Char.ofNat 0x205f,
   Char.ofNat 0x3000]

def isPySpace (c : Char) : Bool := pySpaceChars.contains c

/-- Python str.strip with no argument: remove leading and trailing
whitespace characters. -/
def pyStrip (s : List Char) : List Char :=
  ((s.dropWhile isPySpace).reverse.dropWhile isPySpace).reverse

/-- Worker for splitlines: acc holds the characters of the current line
in reverse order.  A CR immediately followed by LF counts as a single
line boundary, any other line break character ends a line by itself, and
a final line with no trailing line break is kept. -/
def splitlinesGo : List Char → List Char → List (List Char)
  | [], acc => if acc.isEmpty then [] else [acc.reverse]
  | [c], acc =>
      if isLineBreak c then [acc.reverse] else [(c :: acc).reverse]
  | c1 :: c2 :: rest, acc =>
      if c1 = '\r' ∧ c2 = '\n' then acc.reverse :: splitlinesGo rest []
      else if isLineBreak c1 then acc.reverse :: splitlinesGo (c2 :: rest) []
      else splitlinesGo (c2 :: rest) (c1 :: acc)

/-- Python str.splitlines (keepends false). -/
def splitlines (s : List Char) : List (List Char) := splitlinesGo s []

/-- Python str.startswith for a literal pattern (pattern first). -/
def startsWith : List Char → List Char → Bool
  | [], _ => true
  | _ :: _, [] => false
  | p :: ps, c :: cs => p == c && startsWith ps cs

/-- Python str.endswith for a literal pattern (pattern first). -/
def endsWith (p s : List Char) : Bool := startsWith p.reverse s.reverse

/-- Python str.ljust with the space fill character. -/
def ljust (s : List Char) (n : Nat) : List Char :=
  s ++ List.replicate (n - s.length) ' '

/-- The export_map method of GridWidget, as a function of the grid: each
row is joined and suffixed with a star, the result is wrapped in the
C-style string literal header and footer. -/
def export_map (grid : List (List Char)) : List Char :=
  let lines := grid.map (fun row => row ++ ['*'])
  let result := ['"', '\\', '\n']
  let result := lines.foldl (fun acc line => acc ++ line ++ ['\\', '\n']) result
  result ++ ['"', ';']

/-- Remove the header line of an imported map string if present, i.e. a
first line starting with a double quote followed by a backslash. -/
def dropHeaderLine (lines : List (List Char)) : List (List Char) :=
  match lines with
  | [] => []
  | l :: rest => if startsWith ['"', '\\'] l then rest else l :: rest

/-- Remove the footer line of an imported map string if present, i.e. a
last line ending with a double quote followed by a semicolon. -/
def dropFooterLine (lines : List (List Char)) : List (List Char) :=
  match lines.getLast? with
  | some l => if endsWith ['"', ';'] l then lines.dropLast else lines
  | none => lines

/-- Remove a single trailing backslash from a line if present. -/
def stripTrailingBackslash (line : List Char) : List Char :=
  if endsWith ['\\'] line then line.dropLast else line

/-- Per-line adjustment of import_map: strip a trailing backslash, then
right-pad short lines to cols characters and append a star, or truncate
long lines to cols + 1 characters. -/
def processLine (cols : Nat) (line : List Char) : List Char :=
  let line := stripTrailingBackslash line
  if line.length < cols + 1 then ljust line cols ++ ['*']
  else line.take (cols + 1)

/-- The content lines that import_map iterates over: the stripped input
split into lines with header and footer lines removed. -/
def contentLines (text : List Char) : List (List Char) :=
  dropFooterLine (dropHeaderLine (splitlines (pyStrip text)))

/-- The per-line loop of import_map: each processed line must carry the
star terminator at index cols, and contributes its first cols characters
as a grid row; a missing terminator raises ValueError. -/
def parseRows (cols : Nat) : List (List Char) → Except String (List (List Char))
  | [] => Except.ok []
  | l :: ls =>
      let line := processLine cols l
      if line.get? cols = some '*' then
        match parseRows cols ls with
        | Except.ok rest => Except.ok (line.take cols :: rest)
        | Except.error e => Except.error e
      else Except.error ("Invalid row format: missing star terminator at the end.")

/-- Row-count adjustment of import_map: pad with blank rows up to rows,
or truncate to the first rows rows. -/
def padRows (rows cols : Nat) (g : List (List Char)) : List (List Char) :=
  if g.length < rows then
    g ++ List.replicate (rows - g.length) (List.replicate cols ' ')
  else if g.length > rows then g.take rows
  else g

/-- The grid computation performed by import_map on its input text: the
decode direction of the codec. -/
def importParse (rows cols : Nat) (text : List Char) : Except String (List (List Char)) :=
  match parseRows cols (contentLines text) with
  | Except.ok g => Except.ok (padRows rows cols g)
  | Except.error e => Except.error e

/-- The selected tile of the widget: either a single-character tile
symbol, or the sentinel string GO that triggers the game-object prompt.
These are the only values the UI ever assigns to selected_tile. -/
inductive Tile
  | sym : Char → Tile
  | go
deriving DecidableEq

/-- The mouse buttons distinguished by the grid-mode handlers: the right
button triggers the temporary eraser, any other button behaves alike. -/
inductive MouseButton
  | left
  | right
deriving DecidableEq

/-- The editing mode of the widget, compared against the strings grid
and sketch in the source. -/
inductive EditorMode
  | grid
  | sketch
deriving DecidableEq

/-- Outcome of the QInputDialog game-object prompt: ok flag and the
entered text. -/
structure DialogInput where
  ok : Bool
  text : List Char
deriving DecidableEq

/-- The grid-relevant state of a GridWidget.  Sketch-layer fields
(pixmaps, eraser geometry) are rendering state never read by the grid
operations and are omitted. -/
structure WidgetState where
  rows : Nat
  cols : Nat
  cell_size : Int
  grid : List (List Char)
  selected_tile : Tile
  is_dragging : Bool
  history : List (List (Nat × Nat × Char))
  current_drag_changes : List (Nat × Nat × Char)
  mode : EditorMode
  original_selected_tile : Option Tile
deriving DecidableEq

/-- The GridWidget constructor: blank grid, solid-block tile selected,
empty history, grid mode. -/
def initGridWidget (rows cols : Nat) (cell_size : Int) : WidgetState :=
  { rows := rows
    cols := cols
    cell_size := cell_size
    grid := List.replicate rows (List.replicate cols ' ')
    selected_tile := Tile.sym '#'
    is_dragging := false
    history := []
    current_drag_changes := []
    mode := EditorMode.grid
    original_selected_tile := none }

/-- Read grid cell (r, c); in the source every access is in bounds, the
default only makes the function total. -/
def getCell (g : List (List Char)) (r c : Nat) : Char :=
  (g.getD r []).getD c ' '

/-- Write grid cell (r, c); out-of-range indices leave the grid
unchanged (the source never writes out of range). -/
def setCell : List (List Char) → Nat → Nat → Char → List (List Char)
  | [], _, _, _ => []
  | row :: rest, 0, c, v => row.set c v :: rest
  | row :: rest, r + 1, c, v => row :: setCell rest r c v

/-- The comparison of a grid cell (a one-character string in Python)
with the selected tile: a cell never equals the two-character sentinel
string GO. -/
def cellEqTile (cell : Char) (t : Tile) : Bool :=
  match t with
  | Tile.sym ch => cell == ch
  | Tile.go => false

/-- The grid-mode branch of GridWidget.mousePressEvent.  The pixel
position is converted to a cell with floor division by cell_size; inside
the grid, a right press temporarily selects the empty-space tile, the
drag starts with the pressed cell's previous value recorded, and the
cell is painted (via the dialog for the GO sentinel). -/
def mousePressEvent (s : WidgetState) (button : MouseButton) (x y : Int)
    (dlg : DialogInput) : WidgetState :=
  if s.mode = EditorMode.grid then
    let col := Int.fdiv x s.cell_size
    let row := Int.fdiv y s.cell_size
    if 0 ≤ col ∧ col < (s.cols : Int) ∧ 0 ≤ row ∧ row < (s.rows : Int) then
      let s1 :=
        if button = MouseButton.right then
          { s with original_selected_tile := some s.selected_tile
                   selected_tile := Tile.sym ' ' }
        else s
      let r := row.toNat
      let c := col.toNat
      let s2 := { s1 with is_dragging := true
                          current_drag_changes := [(r, c, getCell s1.grid r c)] }
      match s2.selected_tile with
      | Tile.go =>
          if dlg.ok = true ∧ dlg.text.length = 1 then
            { s2 with grid := setCell s2.grid r c (dlg.text.headD ' ') }
          else s2
      | Tile.sym ch => { s2 with grid := setCell s2.grid r c ch }
    else s
  else s

/-- The grid-mode branch of GridWidget.mouseMoveEvent: while dragging,
a visited in-bounds cell whose value differs from the selected tile is
recorded in current_drag_changes, then the cell is painted. -/
def mouseMoveEvent (s : WidgetState) (x y : Int) (dlg : DialogInput) : WidgetState :=
  if s.mode = EditorMode.grid ∧ s.is_dragging = true then
    let col := Int.fdiv x s.cell_size
    let row := Int.fdiv y s.cell_size
    if 0 ≤ col ∧ col < (s.cols : Int) ∧ 0 ≤ row ∧ row < (s.rows : Int) then
      let r := row.toNat
      let c := col.toNat
      let s1 :=
        if cellEqTile (getCell s.grid r c) s.selected_tile then s
        else { s with current_drag_changes :=
                        s.current_drag_changes ++ [(r, c, getCell s.grid r c)] }
      match s1.selected_tile with
      | Tile.go =>
          if dlg.ok = true ∧ dlg.text.length = 1 then
            { s1 with grid := setCell s1.grid r c (dlg.text.headD ' ') }
          else s1
      | Tile.sym ch => { s1 with grid := setCell s1.grid r c ch }
    else s
  else s

/-- The grid-mode branch of GridWidget.mouseReleaseEvent: restore the
tile saved by a right press, stop dragging, and push the pending change
list onto the history if it is non-empty.  The pending list itself is
not cleared here.  The sketch-mode branch touches only sketch fields. -/
def mouseReleaseEvent (s : WidgetState) (button : MouseButton) : WidgetState :=
  if s.mode = EditorMode.grid then
    let s1 :=
      if button = MouseButton.right ∧ s.original_selected_tile ≠ none then
        { s with selected_tile := s.original_selected_tile.getD s.selected_tile
                 original_selected_tile := none }
      else s
    let s2 := { s1 with is_dragging := false }
    if s2.current_drag_changes ≠ [] then
      { s2 with history := s2.history ++ [s2.current_drag_changes] }
    else s2
  else s

/-- Apply a history unit in order: each triple writes its recorded
previous value back into its cell (the loop body of GridWidget.undo). -/
def applyTriples (g : List (List Char)) : List (Nat × Nat × Char) → List (List Char)
  | [] => g
  | (r, c, v) :: rest => applyTriples (setCell g r c v) rest

/-- GridWidget.undo: pop the most recent history unit (if any) and
restore every recorded previous value. -/
def undo (s : WidgetState) : WidgetState :=
  match s.history.getLast? with
  | none => s
  | some last =>
      { s with history := s.history.dropLast
               grid := applyTriples s.grid last }

/-- The full-grid snapshot computed by GridWidget.clear_grid: one triple
per cell in row-major order, holding the cell's current value. -/
def gridSnapshot (rows cols : Nat) (g : List (List Char)) : List (Nat × Nat × Char) :=
  ((List.range rows).map (fun r =>
    (List.range cols).map (fun c => (r, c, getCell g r c)))).flatten

/-- GridWidget.clear_grid: push the full-grid snapshot as one history
unit, then reset every cell to the space character. -/
def clear_grid (s : WidgetState) : WidgetState :=
  { s with history := s.history ++ [gridSnapshot s.rows s.cols s.grid]
           grid := List.replicate s.rows (List.replicate s.cols ' ') }

/-- GridWidget.import_map as a state transformer: the first component is
the state after the call, the second the raised error message if any.
The source builds new_grid locally and assigns self.grid only after the
whole loop, so a raised error leaves the state untouched. -/
def import_map (s : WidgetState) (text : List Char) : WidgetState × Option String :=
  match importParse s.rows s.cols text with
  | Except.ok g => ({ s with grid := g }, none)
  | Except.error e => (s, some e)

/-- A list of (row, col, previousValue) triples addresses pairwise
distinct cells. -/
def cellsDistinct : List (Nat × Nat × Char) → Bool
  | [] => true
  | t :: ts => ts.all (fun u => !(u.1 == t.1 && u.2.1 == t.2.1)) && cellsDistinct ts

/-- One pointer-move event of a gesture: pixel position and the
game-object dialog outcome should the GO prompt open. -/
structure MoveEvent where
  x : Int
  y : Int
  dlg : DialogInput

/-- One full paint gesture without its release: the press event followed
by a sequence of move events. -/
def runGesture (s : WidgetState) (button : MouseButton) (x y : Int)
    (dlg : DialogInput) (moves : List MoveEvent) : WidgetState :=
  moves.foldl (fun st m => mouseMoveEvent st m.x m.y m.dlg)
    (mousePressEvent s button x y dlg)

/-- The tile a gesture paints with: a right press switches to the
empty-space tile, any other press keeps the current selection. -/
def effectiveTile (button : MouseButton) (t : Tile) : Tile :=
  if button = MouseButton.right then Tile.sym ' ' else t

/-- The grid invariant: exactly rows rows, each of exactly cols cells. -/
def gridWellFormed (rows cols : Nat) (g : List (List Char)) : Prop :=
  g.length = rows ∧ ∀ row ∈ g, row.length = cols

/-- The value written last to cell (r, c) by a list of triples, if any
triple addresses that cell. -/
def lastWrite (ts : List (Nat × Nat × Char)) (r c : Nat) : Option Char :=
  ts.foldl (fun acc t => if t.1 = r ∧ t.2.1 = c then some t.2.2 else acc) none

/-- Invariant maintained along a single-character-tile gesture that
started on grid g0: the widget stays in grid mode and dragging, the
dimensions are preserved, the pending triples address pairwise distinct
in-bounds cells and record the pre-gesture values, every recorded cell
currently holds the gesture tile, and every unrecorded cell still holds
its pre-gesture value. -/
structure GestureInv (g0 : List (List Char)) (rows cols : Nat) (ch : Char)
    (t : WidgetState) : Prop where
  mode_eq : t.mode = EditorMode.grid
  dragging : t.is_dragging = true
  tile_eq : t.selected_tile = Tile.sym ch
  rows_eq : t.rows = rows
  cols_eq : t.cols = cols
  grid_len : t.grid.length = rows
  grid_rows : ∀ row ∈ t.grid, row.length = cols
  distinct : cellsDistinct t.current_drag_changes = true
  recorded : ∀ trip ∈ t.current_drag_changes,
    trip.1 < rows ∧ trip.2.1 < cols
      ∧ trip.2.2 = getCell g0 trip.1 trip.2.1
      ∧ getCell t.grid trip.1 trip.2.1 = ch
  unrecorded : ∀ r c, r < rows → c < cols →
    (∀ trip ∈ t.current_drag_changes, ¬(trip.1 = r ∧ trip.2.1 = c)) →
    getCell t.grid r c = getCell g0 r c

example : importParse 2 3 (export_map [['#', '~', ' '], ['a', 'b', 'c']]) =
    Except.ok [['#', '~', ' '], ['a', 'b', 'c']] := rfl

example : importParse 2 3 [] = Except.ok [[' ', ' ', ' '], [' ', ' ', ' ']] := rfl

example : importParse 1 2 ['a', 'b', 'c', 'x'] =
    Except.error ("Invalid row format: missing star terminator at the end.") := rfl

example :
    let s0 := initGridWidget 2 2 20
    let s1 := mouseReleaseEvent (mousePressEvent s0 MouseButton.left 0 0 ⟨false, []⟩) MouseButton.left
    let s2 := { s1 with selected_tile := Tile.sym '~' }
    let s3 := mouseReleaseEvent (mousePressEvent s2 MouseButton.left 0 0 ⟨false, []⟩) MouseButton.left
    getCell (undo s3).grid 0 0 = '#' ∧ getCell (undo (undo s3)).grid 0 0 = ' '
      ∧ s3.history.length = 2 := by decide

example :
    let s0 := { initGridWidget 2 2 20 with selected_tile := Tile.go }
    let t := mouseMoveEvent (mousePressEvent s0 MouseButton.left 0 0 ⟨true, ['X']⟩) 0 0 ⟨true, ['Y']⟩
    t.current_drag_changes = [(0, 0, ' '), (0, 0, 'X')] := by decide

example :
    let s0 := initGridWidget 2 2 20
    let t := mouseReleaseEvent (mousePressEvent s0 MouseButton.left 0 0 ⟨false, []⟩) MouseButton.left
    t.current_drag_changes = [(0, 0, ' ')] ∧ t.history = [[(0, 0, ' ')]] := by decide

theorem foldl_append_flatten (ls : List (List Char)) (init : List Char) :
    ls.foldl (fun acc line => acc ++ line ++ ['\\', '\n']) init
      = init ++ (ls.map (fun line => line ++ ['\\', '\n'])).flatten := by
  induction ls generalizing init with
  | nil => simp
  | cons l ls ih =>
      rw [List.foldl_cons, ih]
      simp [List.append_assoc]

theorem export_map_eq (g : List (List Char)) :
    export_map g =
      ['"', '\\', '\n'] ++ (g.map (fun row => row ++ ['*', '\\', '\n'])).flatten
        ++ ['"', ';'] := by
  show (g.map (fun row => row ++ ['*'])).foldl
      (fun acc line => acc ++ line ++ ['\\', '\n']) ['"', '\\', '\n'] ++ ['"', ';'] = _
  rw [foldl_append_flatten]
  simp only [List.map_map, List.append_assoc]
  have hc : ((fun line => line ++ ['\\', '\n']) ∘ fun row => row ++ ['*'])
      = fun row : List Char => row ++ ['*', '\\', '\n'] := by
    funext row
    simp
  rw [hc]

/-- C2: export_map is total and deterministic (a pure function of the
grid) and returns exactly the bytes: the 3 characters double quote,
backslash, newline; then for each grid row that row's cell characters
followed by the star terminator, a backslash and a newline; then the 2
final characters double quote and semicolon with nothing after them. -/
theorem c2_export_format (g : List (List Char)) :
    export_map g =
      ['"', '\\', '\n'] ++ (g.map (fun row => row ++ ['*', '\\', '\n'])).flatten
        ++ ['"', ';'] :=
  export_map_eq g

theorem ne_cr_of_not_break {c : Char} (h : isLineBreak c = false) : c ≠ '\r' := by
  intro e
  rw [e] at h
  exact absurd h (by decide)

theorem splitlinesGo_line (a : List Char) (t acc : List Char)
    (h : ∀ c ∈ a, isLineBreak c = false) :
    splitlinesGo (a ++ '\n' :: t) acc = (acc.reverse ++ a) :: splitlinesGo t [] := by
  induction a generalizing acc with
  | nil =>
      cases t with
      | nil => simp [splitlinesGo, show isLineBreak '\n' = true by decide]
      | cons c t' =>
          show splitlinesGo ('\n' :: c :: t') acc = _
          rw [splitlinesGo]
          rw [if_neg (by simp), if_pos (by decide)]
          simp
  | cons d a' ih =>
      have hd : isLineBreak d = false := h d (by simp)
      have hdcr : d ≠ '\r' := ne_cr_of_not_break hd
      have h' : ∀ c ∈ a', isLineBreak c = false := fun c hc => h c (by simp [hc])
      cases a' with
      | nil =>
          show splitlinesGo (d :: '\n' :: t) acc = _
          rw [splitlinesGo]
          rw [if_neg (by simp [hdcr]), if_neg (by simp [hd])]
          have hi := ih (d :: acc) (by simp)
          rw [List.nil_append] at hi
          rw [hi]
          simp
      | cons e a'' =>
          show splitlinesGo (d :: e :: (a'' ++ '\n' :: t)) acc = _
          rw [splitlinesGo]
          rw [if_neg (by simp [hdcr]), if_neg (by simp [hd])]
          have hi := ih (d :: acc) h'
          rw [List.cons_append] at hi
          rw [hi]
          simp

theorem splitlinesGo_chunks (ls : List (List Char)) (t : List Char)
    (h : ∀ l ∈ ls, ∀ c ∈ l, isLineBreak c = false) :
    splitlinesGo ((ls.map (fun l => l ++ ['\n'])).flatten ++ t) [] =
      ls ++ splitlinesGo t [] := by
  induction ls with
  | nil => simp
  | cons l ls ih =>
      have hl : ∀ c ∈ l, isLineBreak c = false := h l (by simp)
      have h' : ∀ l' ∈ ls, ∀ c ∈ l', isLineBreak c = false :=
        fun l' hm => h l' (by simp [hm])
      simp only [List.map_cons, List.flatten_cons, List.append_assoc]
      have : (['\n'] ++ ((ls.map (fun l => l ++ ['\n'])).flatten ++ t))
          = '\n' :: ((ls.map (fun l => l ++ ['\n'])).flatten ++ t) := rfl
      rw [this, splitlinesGo_line l _ [] hl, ih h']
      simp

theorem export_map_chunks (g : List (List Char)) :
    export_map g =
      ((['"', '\\'] :: g.map (fun r => r ++ ['*', '\\'])).map
        (fun l => l ++ ['\n'])).flatten ++ ['"', ';'] := by
  rw [export_map_eq]
  simp only [List.map_cons, List.flatten_cons, List.map_map, List.append_assoc]
  have hc : ((fun l => l ++ ['\n']) ∘ fun r : List Char => r ++ ['*', '\\'])
      = fun row : List Char => row ++ ['*', '\\', '\n'] := by
    funext row
    simp
  rw [hc]
  rfl

theorem splitlines_export (g : List (List Char))
    (h : ∀ row ∈ g, ∀ c ∈ row, isLineBreak c = false) :
    splitlines (export_map g) =
      ['"', '\\'] :: (g.map (fun r => r ++ ['*', '\\']) ++ [['"', ';']]) := by
  rw [splitlines, export_map_chunks]
  rw [splitlinesGo_chunks]
  · rw [show splitlinesGo ['"', ';'] [] = [['"', ';']] by decide]
    simp
  · intro l hl
    rcases List.mem_cons.1 hl with rfl | hl
    · decide
    · obtain ⟨row, hrow, rfl⟩ := List.mem_map.1 hl
      intro c hc
      rcases List.mem_append.1 hc with hc | hc
      · exact h row hrow c hc
      · fin_cases hc <;> decide

theorem pyStrip_sandwich (c d : Char) (m : List Char)
    (hc : isPySpace c = false) (hd : isPySpace d = false) :
    pyStrip (c :: (m ++ [d])) = c :: (m ++ [d]) := by
  unfold pyStrip
  rw [List.dropWhile_cons_of_neg (by simp [hc])]
  rw [show (c :: (m ++ [d])).reverse = d :: (m.reverse ++ [c]) by simp]
  rw [List.dropWhile_cons_of_neg (by simp [hd])]
  simp

theorem pyStrip_export (g : List (List Char)) :
    pyStrip (export_map g) = export_map g := by
  have he : export_map g =
      '"' :: ((['\\', '\n'] ++ (g.map (fun row => row ++ ['*', '\\', '\n'])).flatten
        ++ ['"']) ++ [';']) := by
    rw [export_map_eq]
    simp
  rw [he, pyStrip_sandwich '"' ';' _ (by decide) (by decide)]

theorem endsWith_concat_self (c : Char) (s : List Char) :
    endsWith [c] (s ++ [c]) = true := by
  unfold endsWith
  simp [startsWith]

theorem stripTrailingBackslash_concat (r : List Char) :
    stripTrailingBackslash (r ++ ['*', '\\']) = r ++ ['*'] := by
  have h1 : endsWith ['\\'] (r ++ ['*', '\\']) = true := by
    unfold endsWith
    simp [startsWith]
  unfold stripTrailingBackslash
  rw [if_pos h1]
  rw [show r ++ ['*', '\\'] = (r ++ ['*']) ++ ['\\'] by simp]
  exact List.dropLast_concat

theorem processLine_encode (cols : Nat) (r : List Char) (hr : r.length = cols) :
    processLine cols (r ++ ['*', '\\']) = r ++ ['*'] := by
  unfold processLine
  rw [stripTrailingBackslash_concat]
  have hlen : (r ++ ['*']).length = cols + 1 := by simp [hr]
  rw [if_neg (by omega)]
  rw [← hlen, List.take_length]

theorem get_append_star (cols : Nat) (r : List Char) (hr : r.length = cols) :
    (r ++ ['*']).get? cols = some '*' := by
  rw [← hr, List.get?_eq_getElem?]
  exact List.getElem?_concat_length r '*'

theorem take_append_star (cols : Nat) (r : List Char) (hr : r.length = cols) :
    (r ++ ['*']).take cols = r := by
  rw [← hr]
  exact List.take_left r ['*']

theorem parseRows_encode (cols : Nat) (g : List (List Char))
    (h : ∀ row ∈ g, row.length = cols) :
    parseRows cols (g.map (fun r => r ++ ['*', '\\'])) = Except.ok g := by
  induction g with
  | nil => rfl
  | cons row rest ih =>
      have hrow : row.length = cols := h row (by simp)
      have h' : ∀ r ∈ rest, r.length = cols := fun r hm => h r (by simp [hm])
      simp only [List.map_cons, parseRows]
      rw [processLine_encode cols row hrow]
      rw [if_pos (get_append_star cols row hrow)]
      rw [ih h', take_append_star cols row hrow]

theorem padRows_self (rows cols : Nat) (g : List (List Char))
    (h : g.length = rows) : padRows rows cols g = g := by
  unfold padRows
  rw [if_neg (by omega), if_neg (by omega)]

theorem dropHeaderLine_cons (X : List (List Char)) :
    dropHeaderLine (['"', '\\'] :: X) = X := by
  simp only [dropHeaderLine]
  rw [if_pos (by decide)]

theorem dropFooterLine_concat (X : List (List Char)) :
    dropFooterLine (X ++ [['"', ';']]) = X := by
  unfold dropFooterLine
  rw [List.getLast?_concat]
  show (if endsWith ['"', ';'] ['"', ';'] = true then (X ++ [['"', ';']]).dropLast
    else X ++ [['"', ';']]) = X
  rw [if_pos (by decide)]
  exact List.dropLast_concat

/-- C1: round trip.  For every rows by cols grid whose cells are single
printable characters (in particular no cell is one of the line break
characters, all of which are unprintable), parsing the exported text
with the same dimensions reproduces the grid exactly. -/
theorem c1_round_trip (rows cols : Nat) (g : List (List Char))
    (hrows : g.length = rows) (hcols : ∀ row ∈ g, row.length = cols)
    (hchars : ∀ row ∈ g, ∀ c ∈ row, isLineBreak c = false) :
    importParse rows cols (export_map g) = Except.ok g := by
  unfold importParse contentLines
  rw [pyStrip_export, splitlines_export g hchars]
  rw [dropHeaderLine_cons, dropFooterLine_concat]
  rw [parseRows_encode cols g hcols]
  show Except.ok (padRows rows cols g) = Except.ok g
  rw [padRows_self rows cols g hrows]

/-- Witness for C1 at a concrete 2 by 3 grid. -/
theorem c1_round_trip_witness :
    importParse 2 3 (export_map [['#', '~', ' '], ['a', 'b', 'c']]) =
      Except.ok [['#', '~', ' '], ['a', 'b', 'c']] :=
  c1_round_trip 2 3 [['#', '~', ' '], ['a', 'b', 'c']] rfl (by decide) (by decide)

theorem parseRows_error_iff (cols : Nat) (ls : List (List Char)) :
    (∃ e, parseRows cols ls = Except.error e) ↔
      ∃ l ∈ ls, (processLine cols l).get? cols ≠ some '*' := by
  induction ls with
  | nil => simp [parseRows]
  | cons l ls ih =>
      simp only [parseRows]
      by_cases hl : (processLine cols l).get? cols = some '*'
      · rw [if_pos hl]
        cases hp : parseRows cols ls with
        | ok g =>
            simp only [hp]
            constructor
            · rintro ⟨e, he⟩
              exact absurd he (by simp)
            · rintro ⟨l', hl', hbad⟩
              rcases List.mem_cons.1 hl' with rfl | hl'
              · exact absurd hl hbad
              · have : ∃ e, parseRows cols ls = Except.error e := ih.2 ⟨l', hl', hbad⟩
                rcases this with ⟨e, he⟩
                rw [hp] at he
                exact absurd he (by simp)
        | error e =>
            simp only [hp]
            constructor
            · intro _
              rcases ih.1 ⟨e, hp⟩ with ⟨l', hl', hbad⟩
              exact ⟨l', by simp [hl'], hbad⟩
            · intro _
              exact ⟨e, rfl⟩
      · rw [if_neg hl]
        constructor
        · intro _
          exact ⟨l, by simp, hl⟩
        · intro _
          exact ⟨_, rfl⟩

theorem parseRows_ok_of_all (cols : Nat) (ls : List (List Char))
    (h : ∀ l ∈ ls, (processLine cols l).get? cols = some '*') :
    parseRows cols ls = Except.ok (ls.map (fun l => (processLine cols l).take cols)) := by
  induction ls with
  | nil => rfl
  | cons l ls ih =>
      simp only [parseRows]
      rw [if_pos (h l (by simp))]
      rw [ih (fun l' hm => h l' (by simp [hm]))]
      simp

/-- C3: decode strictness and atomicity.  import_map raises exactly when
some content line, after header and footer removal, backslash stripping
and padding or truncation to cols + 1 characters, does not carry the
star terminator at index cols; and whenever it raises, the widget state
(in particular its grid) is exactly what it was before the call. -/
theorem c3_strict_atomic (s : WidgetState) (text : List Char) :
    ((import_map s text).2 ≠ none ↔
      ∃ l ∈ contentLines text, (processLine s.cols l).get? s.cols ≠ some '*')
    ∧ ((import_map s text).2 ≠ none → (import_map s text).1 = s) := by
  unfold import_map importParse
  cases hp : parseRows s.cols (contentLines text) with
  | ok g =>
      constructor
      · simp only []
        constructor
        · intro h
          exact absurd rfl h
        · rintro ⟨l, hl, hbad⟩
          rcases (parseRows_error_iff s.cols (contentLines text)).2 ⟨l, hl, hbad⟩ with ⟨e, he⟩
          rw [hp] at he
          exact absurd he (by simp)
      · intro h
        exact absurd rfl h
  | error e =>
      constructor
      · simp only []
        constructor
        · intro _
          exact (parseRows_error_iff s.cols (contentLines text)).1 ⟨e, hp⟩
        · intro _
          simp
      · intro _
        rfl

/-- Witness for C3: a failing import leaves the widget state unchanged. -/
theorem c3_strict_atomic_witness :
    (import_map (initGridWidget 1 2 20) ['a', 'b', 'c', 'x']).1 =
      initGridWidget 1 2 20 :=
  (c3_strict_atomic (initGridWidget 1 2 20) ['a', 'b', 'c', 'x']).2 (by decide)

/-- C4: decode dimensional leniency.  After backslash stripping, a line
shorter than cols + 1 characters is right-padded with spaces to cols
characters and given a star terminator, a line of cols + 1 or more
characters is truncated to exactly cols + 1 characters; a successful
parse keeps, for each content line, the first cols characters of the
processed line, pads with blank rows when fewer than rows lines result
and keeps only the first rows otherwise. -/
theorem c4_leniency (rows cols : Nat) :
    (∀ line : List Char,
      ((stripTrailingBackslash line).length < cols + 1 →
        processLine cols line =
          stripTrailingBackslash line
            ++ List.replicate (cols - (stripTrailingBackslash line).length) ' '
            ++ ['*'])
      ∧ (cols + 1 ≤ (stripTrailingBackslash line).length →
        processLine cols line = (stripTrailingBackslash line).take (cols + 1)))
    ∧ (∀ g : List (List Char), g.length < rows →
        padRows rows cols g =
          g ++ List.replicate (rows - g.length) (List.replicate cols ' '))
    ∧ (∀ g : List (List Char), rows ≤ g.length → padRows rows cols g = g.take rows)
    ∧ (∀ text : List Char,
        (∀ l ∈ contentLines text, (processLine cols l).get? cols = some '*') →
        importParse rows cols text =
          Except.ok (padRows rows cols
            ((contentLines text).map (fun l => (processLine cols l).take cols)))) := by
  refine ⟨fun line => ⟨fun hshort => ?_, fun hlong => ?_⟩,
    fun g hg => ?_, fun g hg => ?_, fun text hok => ?_⟩
  · unfold processLine
    rw [if_pos hshort]
    unfold ljust
    simp
  · unfold processLine
    rw [if_neg (by omega)]
  · unfold padRows
    rw [if_pos hg]
  · unfold padRows
    rcases Nat.lt_or_ge rows g.length with h | h
    · rw [if_neg (by omega), if_pos h]
    · have he : g.length = rows := by omega
      rw [if_neg (by omega), if_neg (by omega)]
      rw [← he, List.take_length]
  · unfold importParse
    rw [parseRows_ok_of_all cols (contentLines text) hok]

/-- Witness for C4: a 3-character line against cols 5 is padded, a
7-character line is truncated, and a successful parse with fewer lines
than rows pads with blank rows. -/
theorem c4_leniency_witness :
    processLine 5 ['a', 'b', 'c'] =
      stripTrailingBackslash ['a', 'b', 'c']
        ++ List.replicate (5 - (stripTrailingBackslash ['a', 'b', 'c']).length) ' '
        ++ ['*']
    ∧ processLine 2 ['a', 'b', 'c', '*', 'd', 'e', 'f'] =
        (stripTrailingBackslash ['a', 'b', 'c', '*', 'd', 'e', 'f']).take 3
    ∧ padRows 3 2 [['a', 'b']] =
        [['a', 'b']] ++ List.replicate (3 - [['a', 'b']].length) (List.replicate 2 ' ')
    ∧ importParse 3 2 ['x', 'y', '*'] =
        Except.ok (padRows 3 2
          ((contentLines ['x', 'y', '*']).map (fun l => (processLine 2 l).take 2))) :=
  ⟨((c4_leniency 3 5).1 ['a', 'b', 'c']).1 (by decide),
   ((c4_leniency 3 2).1 ['a', 'b', 'c', '*', 'd', 'e', 'f']).2 (by decide),
   (c4_leniency 3 2).2.1 [['a', 'b']] (by decide),
   (c4_leniency 3 2).2.2.2 ['x', 'y', '*'] (by decide)⟩

theorem pyStrip_all_space (s : List Char) (h : ∀ c ∈ s, isPySpace c = true) :
    pyStrip s = [] := by
  unfold pyStrip
  have h1 : s.dropWhile isPySpace = [] := by
    rw [List.dropWhile_eq_nil_iff]
    intro c hc
    exact h c hc
  rw [h1]
  simp

theorem padRows_nil (rows cols : Nat) :
    padRows rows cols [] = List.replicate rows (List.replicate cols ' ') := by
  unfold padRows
  rcases Nat.eq_zero_or_pos rows with h | h
  · subst h
    simp
  · rw [if_pos (by simpa using h)]
    simp

/-- C10: decoding an empty or all-whitespace input, or an input holding
only the header and footer lines, succeeds and replaces the grid with
the all-blank rows by cols grid; the terminator check is never reached
because no content lines remain. -/
theorem c10_degenerate_inputs (rows cols : Nat) :
    (∀ text : List Char, (∀ c ∈ text, isPySpace c = true) →
      importParse rows cols text =
        Except.ok (List.replicate rows (List.replicate cols ' ')))
    ∧ importParse rows cols ['"', '\\', '\n', '"', ';'] =
        Except.ok (List.replicate rows (List.replicate cols ' ')) := by
  constructor
  · intro text h
    unfold importParse contentLines
    rw [pyStrip_all_space text h]
    show Except.ok (padRows rows cols []) = _
    rw [padRows_nil]
  · unfold importParse
    rw [show contentLines ['"', '\\', '\n', '"', ';'] = [] from by decide]
    show Except.ok (padRows rows cols []) = _
    rw [padRows_nil]

/-- Witness for C10: the empty input and a blank input both decode to
the blank 2 by 2 grid. -/
theorem c10_degenerate_inputs_witness :
    importParse 2 2 [] = Except.ok (List.replicate 2 (List.replicate 2 ' '))
    ∧ importParse 2 2 [' ', '\t', '\n'] =
        Except.ok (List.replicate 2 (List.replicate 2 ' ')) :=
  ⟨(c10_degenerate_inputs 2 2).1 [] (by decide),
   (c10_degenerate_inputs 2 2).1 [' ', '\t', '\n'] (by decide)⟩

/-- C9: import never modifies the history.  Whether import_map succeeds
or raises, the history after the call is exactly the history before, so
an import cannot be undone. -/
theorem c9_import_history (s : WidgetState) (text : List Char) :
    ((import_map s text).1).history = s.history := by
  unfold import_map
  cases importParse s.rows s.cols text <;> rfl

/-- Counterexample to C5 as stated: a grid-mode release with a non-empty
pending change list pushes it onto the history, but the pending change
list is not cleared (the source never resets current_drag_changes on
release; it is replaced only by the next press). -/
theorem c5_counterexample :
    (mouseReleaseEvent { initGridWidget 2 2 20 with
        is_dragging := true
        current_drag_changes := [(0, 0, ' ')] } MouseButton.left).history
      = [[(0, 0, ' ')]]
    ∧ (mouseReleaseEvent { initGridWidget 2 2 20 with
        is_dragging := true
        current_drag_changes := [(0, 0, ' ')] } MouseButton.left).current_drag_changes
      ≠ [] := by decide

/-- C5 (amended): in grid mode, if the pending change list is non-empty,
release pushes it onto the history as exactly one unit; if it is empty,
the history is unchanged.  In both cases the pending change list keeps
its value: it is not cleared by the release, only the next gesture's
press replaces it. -/
theorem c5_end_gesture (s : WidgetState) (b : MouseButton)
    (h : s.mode = EditorMode.grid) :
    (mouseReleaseEvent s b).current_drag_changes = s.current_drag_changes
    ∧ (s.current_drag_changes ≠ [] →
        (mouseReleaseEvent s b).history = s.history ++ [s.current_drag_changes])
    ∧ (s.current_drag_changes = [] → (mouseReleaseEvent s b).history = s.history) := by
  unfold mouseReleaseEvent
  rw [if_pos h]
  by_cases hb : b = MouseButton.right ∧ s.original_selected_tile ≠ none <;>
    by_cases hc : s.current_drag_changes = [] <;>
      simp [hb, hc]

/-- Witness for C5 (amended): a concrete grid-mode release pushes the
pending unit. -/
theorem c5_end_gesture_witness :
    (mouseReleaseEvent { initGridWidget 2 2 20 with
        is_dragging := true
        current_drag_changes := [(0, 1, '#')] } MouseButton.left).history
      = ({ initGridWidget 2 2 20 with
          is_dragging := true
          current_drag_changes := [(0, 1, '#')] } : WidgetState).history
        ++ [({ initGridWidget 2 2 20 with
          is_dragging := true
          current_drag_changes := [(0, 1, '#')] } : WidgetState).current_drag_changes] :=
  (c5_end_gesture { initGridWidget 2 2 20 with
      is_dragging := true
      current_drag_changes := [(0, 1, '#')] } MouseButton.left rfl).2.1 (by decide)

/-- C7: undo semantics.  With an empty history undo is the identity and
raises nothing; otherwise it removes exactly the most recent unit and
writes every recorded previous value back.  In particular, painting
cell (0, 0) of the blank default 18 by 32 grid to the solid block in one
gesture and to water in a second gesture, one undo restores the solid
block and a second undo restores the space character. -/
theorem c7_undo :
    (∀ s : WidgetState, s.history = [] → undo s = s)
    ∧ (∀ (s : WidgetState) (hist : List (List (Nat × Nat × Char)))
        (u : List (Nat × Nat × Char)), s.history = hist ++ [u] →
        (undo s).history = hist ∧ (undo s).grid = applyTriples s.grid u)
    ∧ (let s0 := initGridWidget 18 32 20
       let s1 := mouseReleaseEvent
         (mousePressEvent s0 MouseButton.left 0 0 ⟨false, []⟩) MouseButton.left
       let s2 := { s1 with selected_tile := Tile.sym '~' }
       let s3 := mouseReleaseEvent
         (mousePressEvent s2 MouseButton.left 0 0 ⟨false, []⟩) MouseButton.left
       getCell (undo s3).grid 0 0 = '#' ∧ getCell (undo (undo s3)).grid 0 0 = ' ') := by
  refine ⟨fun s h => ?_, fun s hist u hh => ?_, by decide⟩
  · simp [undo, h]
  · constructor <;>
      simp [undo, hh, List.getLast?_concat, List.dropLast_concat]

/-- Witness for C7: undo on an empty history is the identity, undo on a
one-unit history pops the unit and replays it. -/
theorem c7_undo_witness :
    undo (initGridWidget 2 2 20) = initGridWidget 2 2 20
    ∧ (undo { initGridWidget 2 2 20 with history := [[(0, 0, '#')]] }).history = []
    ∧ (undo { initGridWidget 2 2 20 with history := [[(0, 0, '#')]] }).grid
        = applyTriples ({ initGridWidget 2 2 20 with
            history := [[(0, 0, '#')]] } : WidgetState).grid [(0, 0, '#')] :=
  ⟨c7_undo.1 (initGridWidget 2 2 20) rfl,
   (c7_undo.2.1 { initGridWidget 2 2 20 with history := [[(0, 0, '#')]] }
      [] [(0, 0, '#')] rfl).1,
   (c7_undo.2.1 { initGridWidget 2 2 20 with history := [[(0, 0, '#')]] }
      [] [(0, 0, '#')] rfl).2⟩

theorem getD_set_eq (l : List Char) (i : Nat) (v : Char) (h : i < l.length) :
    (l.set i v).getD i ' ' = v := by
  induction l generalizing i with
  | nil => simp at h
  | cons a l ih =>
      cases i with
      | zero => rfl
      | succ i =>
          simp only [List.set]
          simpa using ih i (by simpa using h)

theorem getD_set_ne (l : List Char) (i j : Nat) (v : Char) (h : i ≠ j) :
    (l.set i v).getD j ' ' = l.getD j ' ' := by
  induction l generalizing i j with
  | nil => rfl
  | cons a l ih =>
      cases i with
      | zero =>
          cases j with
          | zero => exact absurd rfl h
          | succ j => rfl
      | succ i =>
          cases j with
          | zero => rfl
          | succ j =>
              simp only [List.set, List.getD_cons_succ]
              exact ih i j (fun e => h (by rw [e]))

theorem setCell_length (g : List (List Char)) (r c : Nat) (v : Char) :
    (setCell g r c v).length = g.length := by
  induction g generalizing r with
  | nil => rfl
  | cons row rest ih =>
      cases r with
      | zero => rfl
      | succ r =>
          show (row :: setCell rest r c v).length = (row :: rest).length
          simp [ih r]

theorem setCell_rows (g : List (List Char)) (r c : Nat) (v : Char) (cols : Nat)
    (hw : ∀ row ∈ g, row.length = cols) :
    ∀ row ∈ setCell g r c v, row.length = cols := by
  induction g generalizing r with
  | nil =>
      intro row hm
      simp [show setCell [] r c v = [] from rfl] at hm
  | cons row rest ih =>
      cases r with
      | zero =>
          intro row' hm
          rcases List.mem_cons.1 hm with rfl | hm
          · simpa using hw row (by simp)
          · exact hw row' (by simp [hm])
      | succ r =>
          intro row' hm
          rcases List.mem_cons.1 hm with rfl | hm
          · exact hw row' (by simp)
          · exact ih r (fun q hq => hw q (by simp [hq])) row' hm

theorem getCell_setCell_eq (g : List (List Char)) (r c : Nat) (v : Char)
    (hr : r < g.length) (hc : c < (g.getD r []).length) :
    getCell (setCell g r c v) r c = v := by
  induction g generalizing r with
  | nil => simp at hr
  | cons row rest ih =>
      cases r with
      | zero =>
          show (row.set c v).getD c ' ' = v
          exact getD_set_eq row c v (by simpa using hc)
      | succ r =>
          show getCell (setCell rest r c v) r c = v
          exact ih r (by simpa using hr) (by simpa using hc)

theorem getCell_setCell_ne (g : List (List Char)) (r c r' c' : Nat) (v : Char)
    (h : ¬(r' = r ∧ c' = c)) :
    getCell (setCell g r c v) r' c' = getCell g r' c' := by
  induction g generalizing r r' with
  | nil => rfl
  | cons row rest ih =>
      cases r with
      | zero =>
          cases r' with
          | zero =>
              have hcc : c' ≠ c := fun e => h ⟨rfl, e⟩
              show (row.set c v).getD c' ' ' = row.getD c' ' '
              exact getD_set_ne row c c' v (fun e => hcc e.symm)
          | succ r' => rfl
      | succ r =>
          cases r' with
          | zero => rfl
          | succ r' =>
              show getCell (setCell rest r c v) r' c' = getCell (row :: rest) (r' + 1) c'
              exact ih r r' (fun hh => h ⟨by rw [hh.1], hh.2⟩)

theorem applyTriples_append (g : List (List Char)) (a b : List (Nat × Nat × Char)) :
    applyTriples g (a ++ b) = applyTriples (applyTriples g a) b := by
  induction a generalizing g with
  | nil => rfl
  | cons t a ih =>
      obtain ⟨r, c, v⟩ := t
      simp only [List.cons_append, applyTriples]
      exact ih (setCell g r c v)

theorem applyTriples_length (g : List (List Char)) (ts : List (Nat × Nat × Char)) :
    (applyTriples g ts).length = g.length := by
  induction ts generalizing g with
  | nil => rfl
  | cons t ts ih =>
      obtain ⟨r, c, v⟩ := t
      simp only [applyTriples]
      rw [ih, setCell_length]

theorem applyTriples_rows (g : List (List Char)) (ts : List (Nat × Nat × Char))
    (cols : Nat) (hw : ∀ row ∈ g, row.length = cols) :
    ∀ row ∈ applyTriples g ts, row.length = cols := by
  induction ts generalizing g with
  | nil => exact hw
  | cons t ts ih =>
      obtain ⟨r, c, v⟩ := t
      simp only [applyTriples]
      exact ih (setCell g r c v) (setCell_rows g r c v cols hw)

theorem lastWrite_from (ts : List (Nat × Nat × Char)) (r c : Nat) (init : Option Char) :
    ts.foldl (fun acc t => if t.1 = r ∧ t.2.1 = c then some t.2.2 else acc) init
      = match lastWrite ts r c with
        | some v => some v
        | none => init := by
  induction ts generalizing init with
  | nil => rfl
  | cons t ts ih =>
      show ts.foldl _ (if t.1 = r ∧ t.2.1 = c then some t.2.2 else init) = _
      have hcons : lastWrite (t :: ts) r c
          = match lastWrite ts r c with
            | some v => some v
            | none => if t.1 = r ∧ t.2.1 = c then some t.2.2 else none := by
        show ts.foldl _ (if t.1 = r ∧ t.2.1 = c then some t.2.2 else none) = _
        exact ih _
      rw [ih, hcons]
      cases h : lastWrite ts r c with
      | some v => rfl
      | none =>
          by_cases hc : t.1 = r ∧ t.2.1 = c
      
          · rw [if_pos hc, if_pos hc]
          · rw [if_neg hc, if_neg hc]

theorem lastWrite_concat (a : List (Nat × Nat × Char)) (t : Nat × Nat × Char)
    (r c : Nat) :
    lastWrite (a ++ [t]) r c =
      if t.1 = r ∧ t.2.1 = c then some t.2.2 else lastWrite a r c := by
  show (a ++ [t]).foldl _ none = _
  rw [List.foldl_append]
  rfl

theorem lastWrite_append (a b : List (Nat × Nat × Char)) (r c : Nat) :
    lastWrite (a ++ b) r c =
      match lastWrite b r c with
      | some v => some v
      | none => lastWrite a r c := by
  show (a ++ b).foldl _ none = _
  rw [List.foldl_append]
  exact lastWrite_from b r c _

theorem getCell_applyTriples (ts : List (Nat × Nat × Char)) (g : List (List Char))
    (cols : Nat) (hw : ∀ row ∈ g, row.length = cols)
    (hb : ∀ t ∈ ts, t.1 < g.length ∧ t.2.1 < cols) (r c : Nat) :
    getCell (applyTriples g ts) r c =
      match lastWrite ts r c with
      | some v => v
      | none => getCell g r c := by
  induction ts using List.reverseRecOn with
  | nil => rfl
  | append_singleton ts t ih =>
      have hbts : ∀ u ∈ ts, u.1 < g.length ∧ u.2.1 < cols :=
        fun u hu => hb u (by simp [hu])
      have hbt : t.1 < g.length ∧ t.2.1 < cols := hb t (by simp)
      rw [applyTriples_append, lastWrite_concat]
      show getCell (applyTriples (applyTriples g ts) [t]) r c = _
      obtain ⟨tr, tc, tv⟩ := t
      show getCell (setCell (applyTriples g ts) tr tc tv) r c = _
      by_cases hc : tr = r ∧ tc = c
      · obtain ⟨rfl, rfl⟩ := hc
        rw [if_pos ⟨rfl, rfl⟩]
        apply getCell_setCell_eq
        · rw [applyTriples_length]
          exact hbt.1
        · have hrow : ((applyTriples g ts).getD tr []).length = cols := by
            have hlt : tr < (applyTriples g ts).length := by
              rw [applyTriples_length]
              exact hbt.1
            rw [List.getD_eq_getElem _ _ hlt]
            exact applyTriples_rows g ts cols hw _ (List.getElem_mem hlt)
          rw [hrow]
          exact hbt.2
      · rw [if_neg hc]
        rw [getCell_setCell_ne _ _ _ _ _ _ (fun hh => hc ⟨hh.1.symm, hh.2.symm⟩)]
        exact ih hbts

theorem lastWrite_row (r' cols : Nat) (f : Nat → Char) (r c : Nat) :
    lastWrite ((List.range cols).map (fun j => (r', j, f j))) r c
      = if r' = r ∧ c < cols then some (f c) else none := by
  induction cols with
  | zero => simp [lastWrite]
  | succ n ih =>
      rw [List.range_succ, List.map_append]
      simp only [List.map_cons, List.map_nil]
      rw [lastWrite_concat, ih]
      by_cases hr : r' = r
      · subst hr
        by_cases hc : n = c
        · subst hc
          rw [if_pos ⟨rfl, rfl⟩, if_pos ⟨rfl, by omega⟩]
        · rw [if_neg (by simp [hc])]
          by_cases hlt : c < n
          · rw [if_pos ⟨rfl, hlt⟩, if_pos ⟨rfl, by omega⟩]
          · rw [if_neg (by simp [hlt]), if_neg (by omega)]
      · rw [if_neg (by simp [hr]), if_neg (by simp [hr]), if_neg (by simp [hr])]

theorem gridSnapshot_succ (rows cols : Nat) (g : List (List Char)) :
    gridSnapshot (rows + 1) cols g =
      gridSnapshot rows cols g
        ++ (List.range cols).map (fun c => (rows, c, getCell g rows c)) := by
  unfold gridSnapshot
  rw [List.range_succ, List.map_append]
  simp

theorem lastWrite_snapshot (rows cols : Nat) (g : List (List Char)) (r c : Nat)
    (hr : r < rows) (hc : c < cols) :
    lastWrite (gridSnapshot rows cols g) r c = some (getCell g r c) := by
  induction rows with
  | zero => omega
  | succ n ih =>
      rw [gridSnapshot_succ, lastWrite_append, lastWrite_row]
      by_cases hrn : r = n
      · subst hrn
        rw [if_pos ⟨rfl, hc⟩]
      · rw [if_neg (by simp; omega)]
        exact ih (by omega)

theorem gridSnapshot_bounds (rows cols : Nat) (g : List (List Char)) :
    ∀ t ∈ gridSnapshot rows cols g, t.1 < rows ∧ t.2.1 < cols := by
  intro t ht
  unfold gridSnapshot at ht
  rcases List.mem_flatten.1 ht with ⟨l, hl, htl⟩
  rcases List.mem_map.1 hl with ⟨r, hr, rfl⟩
  rcases List.mem_map.1 htl with ⟨c, hcm, rfl⟩
  exact ⟨List.mem_range.1 hr, List.mem_range.1 hcm⟩

theorem grid_ext (g₁ g₂ : List (List Char)) (cols : Nat)
    (hlen : g₁.length = g₂.length)
    (h1 : ∀ row ∈ g₁, row.length = cols) (h2 : ∀ row ∈ g₂, row.length = cols)
    (h : ∀ r c, r < g₁.length → c < cols → getCell g₁ r c = getCell g₂ r c) :
    g₁ = g₂ := by
  induction g₁ generalizing g₂ with
  | nil =>
      cases g₂ with
      | nil => rfl
      | cons b bs => simp at hlen
  | cons row₁ rest₁ ih =>
      cases g₂ with
      | nil => simp at hlen
      | cons row₂ rest₂ =>
          have hl1 : row₁.length = cols := h1 row₁ (by simp)
          have hl2 : row₂.length = cols := h2 row₂ (by simp)
          have hrow : row₁ = row₂ := by
            apply List.ext_getElem (by omega)
            intro i hi1 hi2
            have hic : i < cols := by omega
            have := h 0 i (by simp) hic
            show row₁[i] = row₂[i]
            rw [show getCell (row₁ :: rest₁) 0 i = row₁.getD i ' ' from rfl,
              show getCell (row₂ :: rest₂) 0 i = row₂.getD i ' ' from rfl] at this
            rw [List.getD_eq_getElem _ _ hi1, List.getD_eq_getElem _ _ hi2] at this
            exact this
          have hrest : rest₁ = rest₂ := by
            apply ih rest₂ (by simpa using hlen)
              (fun q hq => h1 q (by simp [hq])) (fun q hq => h2 q (by simp [hq]))
            intro r c hr hc
            have := h (r + 1) c (by simpa using Nat.succ_lt_succ hr) hc
            exact this
          rw [hrow, hrest]

theorem applyTriples_snapshot (rows cols : Nat) (g : List (List Char))
    (hlen : g.length = rows) (hw : ∀ row ∈ g, row.length = cols) :
    applyTriples (List.replicate rows (List.replicate cols ' '))
      (gridSnapshot rows cols g) = g := by
  have hblank : ∀ row ∈ List.replicate rows (List.replicate cols ' '),
      row.length = cols := by
    intro row hm
    rw [List.eq_of_mem_replicate hm]
    simp
  apply grid_ext _ _ cols
  · rw [applyTriples_length, List.length_replicate, hlen]
  · exact applyTriples_rows _ _ cols hblank
  · exact hw
  · intro r c hr hc
    have hrr : r < rows := by
      rw [applyTriples_length, List.length_replicate] at hr
      exact hr
    rw [getCell_applyTriples _ _ cols hblank
      (fun t ht => by
        have := gridSnapshot_bounds rows cols g t ht
        simpa using this) r c]
    rw [lastWrite_snapshot rows cols g r c hrr hc]

/-- C8: clear is undoable.  clear_grid pushes exactly one history unit,
namely the full-grid snapshot, which contains a triple for every cell of
the rows by cols grid; it blanks every cell; and an immediately
following undo restores the grid and the history exactly. -/
theorem c8_clear_undoable (s : WidgetState)
    (hlen : s.grid.length = s.rows) (hw : ∀ row ∈ s.grid, row.length = s.cols) :
    (clear_grid s).history = s.history ++ [gridSnapshot s.rows s.cols s.grid]
    ∧ (∀ r c, r < s.rows → c < s.cols →
        (r, c, getCell s.grid r c) ∈ gridSnapshot s.rows s.cols s.grid)
    ∧ (clear_grid s).grid = List.replicate s.rows (List.replicate s.cols ' ')
    ∧ (undo (clear_grid s)).grid = s.grid
    ∧ (undo (clear_grid s)).history = s.history := by
  have hlast : (clear_grid s).history.getLast?
      = some (gridSnapshot s.rows s.cols s.grid) := by
    show (s.history ++ [gridSnapshot s.rows s.cols s.grid]).getLast? = _
    exact List.getLast?_concat _
  refine ⟨rfl, ?_, rfl, ?_, ?_⟩
  · intro r c hr hc
    unfold gridSnapshot
    apply List.mem_flatten.2
    refine ⟨(List.range s.cols).map (fun j => (r, j, getCell s.grid r j)), ?_, ?_⟩
    · exact List.mem_map.2 ⟨r, List.mem_range.2 hr, rfl⟩
    · exact List.mem_map.2 ⟨c, List.mem_range.2 hc, rfl⟩
  · unfold undo
    rw [hlast]
    show applyTriples (List.replicate s.rows (List.replicate s.cols ' '))
      (gridSnapshot s.rows s.cols s.grid) = s.grid
    exact applyTriples_snapshot s.rows s.cols s.grid hlen hw
  · unfold undo
    rw [hlast]
    show (s.history ++ [gridSnapshot s.rows s.cols s.grid]).dropLast = s.history
    exact List.dropLast_concat

/-- Witness for C8: clearing a concrete non-blank 2 by 2 grid and then
undoing restores the grid and the history. -/
theorem c8_clear_undoable_witness :
    (undo (clear_grid { initGridWidget 2 2 20 with
        grid := [['#', '~'], ['a', ' ']] })).grid
      = ({ initGridWidget 2 2 20 with
        grid := [['#', '~'], ['a', ' ']] } : WidgetState).grid
    ∧ (undo (clear_grid { initGridWidget 2 2 20 with
        grid := [['#', '~'], ['a', ' ']] })).history
      = ({ initGridWidget 2 2 20 with
        grid := [['#', '~'], ['a', ' ']] } : WidgetState).history :=
  ⟨(c8_clear_undoable { initGridWidget 2 2 20 with
      grid := [['#', '~'], ['a', ' ']] } (by decide) (by decide)).2.2.2.1,
   (c8_clear_undoable { initGridWidget 2 2 20 with
      grid := [['#', '~'], ['a', ' ']] } (by decide) (by decide)).2.2.2.2⟩

theorem getD_row_length (g : List (List Char)) (r cols : Nat)
    (hr : r < g.length) (hw : ∀ row ∈ g, row.length = cols) :
    (g.getD r []).length = cols := by
  rw [List.getD_eq_getElem _ _ hr]
  exact hw _ (List.getElem_mem hr)

theorem cellsDistinct_concat (l : List (Nat × Nat × Char)) (t : Nat × Nat × Char)
    (hl : cellsDistinct l = true)
    (hnew : ∀ u ∈ l, ¬(u.1 = t.1 ∧ u.2.1 = t.2.1)) :
    cellsDistinct (l ++ [t]) = true := by
  induction l with
  | nil => simp [cellsDistinct]
  | cons a l ih =>
      simp only [cellsDistinct, Bool.and_eq_true, List.all_eq_true] at hl
      simp only [List.cons_append, cellsDistinct, Bool.and_eq_true, List.all_eq_true]
      constructor
      · intro u hu
        rcases List.mem_append.1 hu with hu | hu
        · exact hl.1 u hu
        · have : u = t := by simpa using hu
          subst this
          have := hnew a (by simp)
          simp only [Bool.not_eq_true']
          rw [Bool.and_eq_false_iff]
          by_cases h1 : u.1 = a.1
          · right
            rw [beq_eq_false_iff_ne]
            intro h2
            exact this ⟨h1.symm, h2.symm⟩
          · left
            rw [beq_eq_false_iff_ne]
            exact h1
      · exact ih hl.2 (fun u hu => hnew u (by simp [hu]))

theorem mousePressEvent_sym (s : WidgetState) (button : MouseButton) (x y : Int)
    (dlg : DialogInput) (ch : Char) (hmode : s.mode = EditorMode.grid)
    (heff : effectiveTile button s.selected_tile = Tile.sym ch)
    (h1 : 0 ≤ Int.fdiv x s.cell_size) (h2 : Int.fdiv x s.cell_size < (s.cols : Int))
    (h3 : 0 ≤ Int.fdiv y s.cell_size) (h4 : Int.fdiv y s.cell_size < (s.rows : Int)) :
    mousePressEvent s button x y dlg =
      { s with
          selected_tile := Tile.sym ch
          original_selected_tile :=
            if button = MouseButton.right then some s.selected_tile
            else s.original_selected_tile
          is_dragging := true
          current_drag_changes := [((Int.fdiv y s.cell_size).toNat,
            (Int.fdiv x s.cell_size).toNat,
            getCell s.grid (Int.fdiv y s.cell_size).toNat (Int.fdiv x s.cell_size).toNat)]
          grid := setCell s.grid (Int.fdiv y s.cell_size).toNat
            (Int.fdiv x s.cell_size).toNat ch } := by
  unfold effectiveTile at heff
  cases button with
  | left =>
      rw [if_neg (by simp)] at heff
      simp [mousePressEvent, hmode, heff, h1, h2, h3, h4]
  | right =>
      rw [if_pos rfl] at heff
      have hch : ch = ' ' := by
        have := Tile.sym.inj heff
        exact this.symm
      subst hch
      simp [mousePressEvent, hmode, h1, h2, h3, h4]

theorem mouseMoveEvent_sym_eq (t : WidgetState) (x y : Int) (dlg : DialogInput)
    (ch : Char) (hmode : t.mode = EditorMode.grid) (hdrag : t.is_dragging = true)
    (hsel : t.selected_tile = Tile.sym ch)
    (h1 : 0 ≤ Int.fdiv x t.cell_size) (h2 : Int.fdiv x t.cell_size < (t.cols : Int))
    (h3 : 0 ≤ Int.fdiv y t.cell_size) (h4 : Int.fdiv y t.cell_size < (t.rows : Int))
    (hcell : getCell t.grid (Int.fdiv y t.cell_size).toNat
      (Int.fdiv x t.cell_size).toNat = ch) :
    mouseMoveEvent t x y dlg =
      { t with grid := (setCell t.grid (Int.fdiv y t.cell_size).toNat
          (Int.fdiv x t.cell_size).toNat ch) } := by
  simp [mouseMoveEvent, hmode, hdrag, hsel, cellEqTile, h1, h2, h3, h4, hcell]

theorem mouseMoveEvent_sym_ne (t : WidgetState) (x y : Int) (dlg : DialogInput)
    (ch : Char) (hmode : t.mode = EditorMode.grid) (hdrag : t.is_dragging = true)
    (hsel : t.selected_tile = Tile.sym ch)
    (h1 : 0 ≤ Int.fdiv x t.cell_size) (h2 : Int.fdiv x t.cell_size < (t.cols : Int))
    (h3 : 0 ≤ Int.fdiv y t.cell_size) (h4 : Int.fdiv y t.cell_size < (t.rows : Int))
    (hcell : getCell t.grid (Int.fdiv y t.cell_size).toNat
      (Int.fdiv x t.cell_size).toNat ≠ ch) :
    mouseMoveEvent t x y dlg =
      { t with
          current_drag_changes := (t.current_drag_changes
            ++ [((Int.fdiv y t.cell_size).toNat, (Int.fdiv x t.cell_size).toNat,
              getCell t.grid (Int.fdiv y t.cell_size).toNat (Int.fdiv x t.cell_size).toNat)])
          grid := setCell t.grid (Int.fdiv y t.cell_size).toNat
            (Int.fdiv x t.cell_size).toNat ch } := by
  simp [mouseMoveEvent, hmode, hdrag, hsel, cellEqTile, h1, h2, h3, h4, hcell]

theorem mouseMoveEvent_out_of_bounds (t : WidgetState) (x y : Int) (dlg : DialogInput)
    (hnb : ¬(0 ≤ Int.fdiv x t.cell_size ∧ Int.fdiv x t.cell_size < (t.cols : Int)
      ∧ 0 ≤ Int.fdiv y t.cell_size ∧ Int.fdiv y t.cell_size < (t.rows : Int))) :
    mouseMoveEvent t x y dlg = t := by
  by_cases hmd : t.mode = EditorMode.grid ∧ t.is_dragging = true
  · simp [mouseMoveEvent, hmd, hnb]
  · simp [mouseMoveEvent, hmd]

theorem press_establishes_inv (s : WidgetState) (button : MouseButton) (x y : Int)
    (dlg : DialogInput) (ch : Char) (hmode : s.mode = EditorMode.grid)
    (hlen : s.grid.length = s.rows) (hw : ∀ row ∈ s.grid, row.length = s.cols)
    (heff : effectiveTile button s.selected_tile = Tile.sym ch)
    (h1 : 0 ≤ Int.fdiv x s.cell_size) (h2 : Int.fdiv x s.cell_size < (s.cols : Int))
    (h3 : 0 ≤ Int.fdiv y s.cell_size) (h4 : Int.fdiv y s.cell_size < (s.rows : Int)) :
    GestureInv s.grid s.rows s.cols ch (mousePressEvent s button x y dlg) := by
  rw [mousePressEvent_sym s button x y dlg ch hmode heff h1 h2 h3 h4]
  have hrlt : (Int.fdiv y s.cell_size).toNat < s.rows := by omega
  have hclt : (Int.fdiv x s.cell_size).toNat < s.cols := by omega
  have hwfr : (Int.fdiv y s.cell_size).toNat < s.grid.length := by
    rw [hlen]
    exact hrlt
  have hrow : (s.grid.getD (Int.fdiv y s.cell_size).toNat []).length = s.cols :=
    getD_row_length _ _ _ hwfr hw
  refine ⟨hmode, rfl, rfl, rfl, rfl, ?_, ?_, ?_, ?_, ?_⟩
  · show (setCell s.grid _ _ ch).length = s.rows
    rw [setCell_length]
    exact hlen
  · exact setCell_rows _ _ _ _ _ hw
  · rfl
  · intro trip ht
    have htr := List.mem_singleton.1 ht
    subst htr
    refine ⟨hrlt, hclt, rfl, ?_⟩
    exact getCell_setCell_eq _ _ _ _ hwfr (by rw [hrow]; exact hclt)
  · intro r' c' hr' hc' hnone
    have hne := hnone ((Int.fdiv y s.cell_size).toNat, (Int.fdiv x s.cell_size).toNat,
      getCell s.grid (Int.fdiv y s.cell_size).toNat (Int.fdiv x s.cell_size).toNat)
      (by simp)
    show getCell (setCell s.grid _ _ ch) r' c' = getCell s.grid r' c'
    exact getCell_setCell_ne s.grid _ _ r' c' ch (fun hh => hne ⟨hh.1.symm, hh.2.symm⟩)

theorem move_preserves_inv (g0 : List (List Char)) (rows cols : Nat) (ch : Char)
    (t : WidgetState) (x y : Int) (dlg : DialogInput)
    (h : GestureInv g0 rows cols ch t) :
    GestureInv g0 rows cols ch (mouseMoveEvent t x y dlg) := by
  by_cases hb : 0 ≤ Int.fdiv x t.cell_size ∧ Int.fdiv x t.cell_size < (t.cols : Int)
      ∧ 0 ≤ Int.fdiv y t.cell_size ∧ Int.fdiv y t.cell_size < (t.rows : Int)
  case neg =>
    rw [mouseMoveEvent_out_of_bounds t x y dlg hb]
    exact h
  case pos =>
    obtain ⟨h1, h2, h3, h4⟩ := hb
    have hrows := h.rows_eq
    have hcols := h.cols_eq
    have hrlt : (Int.fdiv y t.cell_size).toNat < rows := by omega
    have hclt : (Int.fdiv x t.cell_size).toNat < cols := by omega
    have hwfr : (Int.fdiv y t.cell_size).toNat < t.grid.length := by
      rw [h.grid_len]
      exact hrlt
    have hrowlen : ∀ c', c' < cols →
        c' < (t.grid.getD (Int.fdiv y t.cell_size).toNat []).length :=
      fun c' hc => by
        rw [getD_row_length _ _ cols hwfr h.grid_rows]
        exact hc
    by_cases hcell : getCell t.grid (Int.fdiv y t.cell_size).toNat
        (Int.fdiv x t.cell_size).toNat = ch
    · rw [mouseMoveEvent_sym_eq t x y dlg ch h.mode_eq h.dragging h.tile_eq
        h1 h2 h3 h4 hcell]
      refine ⟨h.mode_eq, h.dragging, h.tile_eq, h.rows_eq, h.cols_eq, ?_, ?_,
        h.distinct, ?_, ?_⟩
      · show (setCell t.grid _ _ ch).length = rows
        rw [setCell_length]
        exact h.grid_len
      · exact setCell_rows _ _ _ _ _ h.grid_rows
      · intro trip ht
        obtain ⟨ha, hb', hc', hd⟩ := h.recorded trip ht
        refine ⟨ha, hb', hc', ?_⟩
        by_cases htc : trip.1 = (Int.fdiv y t.cell_size).toNat
            ∧ trip.2.1 = (Int.fdiv x t.cell_size).toNat
        · rw [htc.1, htc.2]
          exact getCell_setCell_eq _ _ _ _ hwfr (hrowlen _ hclt)
        · rw [getCell_setCell_ne t.grid _ _ trip.1 trip.2.1 ch htc]
          exact hd
      · intro r' c' hr' hc' hnone
        by_cases heq : r' = (Int.fdiv y t.cell_size).toNat
            ∧ c' = (Int.fdiv x t.cell_size).toNat
        · obtain ⟨rfl, rfl⟩ := heq
          have hun := h.unrecorded _ _ hrlt hclt hnone
          rw [getCell_setCell_eq _ _ _ _ hwfr (hrowlen _ hclt)]
          rw [← hun, hcell]
        · rw [getCell_setCell_ne t.grid _ _ r' c' ch heq]
          exact h.unrecorded r' c' hr' hc' hnone
    · rw [mouseMoveEvent_sym_ne t x y dlg ch h.mode_eq h.dragging h.tile_eq
        h1 h2 h3 h4 hcell]
      have hnotrec : ∀ trip ∈ t.current_drag_changes,
          ¬(trip.1 = (Int.fdiv y t.cell_size).toNat
            ∧ trip.2.1 = (Int.fdiv x t.cell_size).toNat) := by
        intro trip ht htc
        have hch := (h.recorded trip ht).2.2.2
        rw [htc.1, htc.2] at hch
        exact hcell hch
      refine ⟨h.mode_eq, h.dragging, h.tile_eq, h.rows_eq, h.cols_eq, ?_, ?_, ?_, ?_, ?_⟩
      · show (setCell t.grid _ _ ch).length = rows
        rw [setCell_length]
        exact h.grid_len
      · exact setCell_rows _ _ _ _ _ h.grid_rows
      · exact cellsDistinct_concat _ _ h.distinct (fun u hu => hnotrec u hu)
      · intro trip ht
        rcases List.mem_append.1 ht with ht | ht
        · obtain ⟨ha, hb', hc', hd⟩ := h.recorded trip ht
          refine ⟨ha, hb', hc', ?_⟩
          rw [getCell_setCell_ne t.grid _ _ trip.1 trip.2.1 ch (hnotrec trip ht)]
          exact hd
        · have htr := List.mem_singleton.1 ht
          subst htr
          refine ⟨hrlt, hclt, ?_, ?_⟩
          · have hv := h.unrecorded ((Int.fdiv y t.cell_size).toNat)
              ((Int.fdiv x t.cell_size).toNat) hrlt hclt hnotrec
            simpa using hv
          · exact getCell_setCell_eq _ _ _ _ hwfr (hrowlen _ hclt)
      · intro r' c' hr' hc' hnone
        have hnold : ∀ trip ∈ t.current_drag_changes, ¬(trip.1 = r' ∧ trip.2.1 = c') :=
          fun trip ht => hnone trip (List.mem_append.2 (Or.inl ht))
        have hnnew := hnone ((Int.fdiv y t.cell_size).toNat,
          (Int.fdiv x t.cell_size).toNat,
          getCell t.grid (Int.fdiv y t.cell_size).toNat (Int.fdiv x t.cell_size).toNat)
          (List.mem_append.2 (Or.inr (by simp)))
        rw [getCell_setCell_ne t.grid _ _ r' c' ch (fun hh => hnnew ⟨hh.1.symm, hh.2.symm⟩)]
        exact h.unrecorded r' c' hr' hc' hnold

theorem foldl_moves_inv (g0 : List (List Char)) (rows cols : Nat) (ch : Char)
    (moves : List MoveEvent) (t0 : WidgetState)
    (h : GestureInv g0 rows cols ch t0) :
    GestureInv g0 rows cols ch
      (moves.foldl (fun st m => mouseMoveEvent st m.x m.y m.dlg) t0) := by
  induction moves generalizing t0 with
  | nil => exact h
  | cons m ms ih => exact ih _ (move_preserves_inv _ _ _ _ _ _ _ _ h)

/-- Counterexample to C6 as stated: with the GO sentinel selected, a
press whose dialog stores X at cell (0, 0) followed by a move over the
same cell records (0, 0) a second time, and the second recorded
previous value X is not the value the cell held before the gesture. -/
theorem c6_counterexample :
    (runGesture { initGridWidget 2 2 20 with selected_tile := Tile.go }
        MouseButton.left 0 0 ⟨true, ['X']⟩
        [⟨0, 0, ⟨true, ['Y']⟩⟩]).current_drag_changes
      = [(0, 0, ' '), (0, 0, 'X')]
    ∧ cellsDistinct (runGesture { initGridWidget 2 2 20 with selected_tile := Tile.go }
        MouseButton.left 0 0 ⟨true, ['X']⟩
        [⟨0, 0, ⟨true, ['Y']⟩⟩]).current_drag_changes = false := by decide

/-- C6 (amended): first-write-wins holds for every gesture whose
effective tile is a single character, i.e. every gesture except a
non-right press with the GO sentinel selected (there a cell can be
recorded repeatedly with stale previous values, see the
counterexample).  For such a gesture, started by an in-bounds press on
a well-formed grid, the pending triples address pairwise distinct cells
and each recorded previousValue is the cell's value before the gesture
began; the unit a release would push therefore addresses pairwise
distinct cells. -/
theorem c6_first_write_wins (s : WidgetState) (button : MouseButton) (x y : Int)
    (dlg : DialogInput) (moves : List MoveEvent) (ch : Char)
    (hmode : s.mode = EditorMode.grid)
    (hlen : s.grid.length = s.rows) (hw : ∀ row ∈ s.grid, row.length = s.cols)
    (heff : effectiveTile button s.selected_tile = Tile.sym ch)
    (h1 : 0 ≤ Int.fdiv x s.cell_size) (h2 : Int.fdiv x s.cell_size < (s.cols : Int))
    (h3 : 0 ≤ Int.fdiv y s.cell_size) (h4 : Int.fdiv y s.cell_size < (s.rows : Int)) :
    cellsDistinct (runGesture s button x y dlg moves).current_drag_changes = true
    ∧ ∀ trip ∈ (runGesture s button x y dlg moves).current_drag_changes,
        trip.2.2 = getCell s.grid trip.1 trip.2.1 := by
  have hinv : GestureInv s.grid s.rows s.cols ch (runGesture s button x y dlg moves) :=
    foldl_moves_inv s.grid s.rows s.cols ch moves _
      (press_establishes_inv s button x y dlg ch hmode hlen hw heff h1 h2 h3 h4)
  exact ⟨hinv.distinct, fun trip ht => (hinv.recorded trip ht).2.2.1⟩

/-- Witness for C6 (amended): a concrete two-event gesture painting two
cells records each exactly once with its pre-gesture value. -/
theorem c6_first_write_wins_witness :
    cellsDistinct (runGesture (initGridWidget 2 2 20) MouseButton.left 0 0
        ⟨false, []⟩ [⟨20, 0, ⟨false, []⟩⟩, ⟨0, 0, ⟨false, []⟩⟩]).current_drag_changes = true
    ∧ ∀ trip ∈ (runGesture (initGridWidget 2 2 20) MouseButton.left 0 0
        ⟨false, []⟩ [⟨20, 0, ⟨false, []⟩⟩, ⟨0, 0, ⟨false, []⟩⟩]).current_drag_changes,
        trip.2.2 = getCell (initGridWidget 2 2 20).grid trip.1 trip.2.1 :=
  c6_first_write_wins (initGridWidget 2 2 20) MouseButton.left 0 0 ⟨false, []⟩
    [⟨20, 0, ⟨false, []⟩⟩, ⟨0, 0, ⟨false, []⟩⟩] '#' rfl (by decide) (by decide)
    (by decide) (by decide) (by decide) (by decide) (by decide)
